import Mathlib

/-!
# picoprobe — SWD probe driver (`src/probe.c`)

A shallow embedding of the probe driver and proofs about it.

* Unsigned 32-bit C arithmetic is modelled on `Nat` with explicit reduction
  modulo `2^32`; an argument passed to a narrower SDK parameter (`uint16_t`,
  `uint8_t`) is reduced modulo the width of that parameter.
* The PIO state machine (`pio0`, `PROBE_SM`) belongs to the Pico SDK and to the
  hardware; it is an arbitrary device `Pio σ` over a state type `σ`.  Every
  state-changing SDK call the driver makes is appended to a trace of `Event`s.
* Calls that can fail to return (`pio_sm_put_blocking`, `pio_sm_get_blocking`,
  `pio_add_program`, the polling loops) give `Res.hang`; C undefined behaviour
  (shift by 32 or more, division by zero) gives `Res.undefined`.
* A polling loop `while (pc != target);` is cut off after `fuel` reads of the program
  counter; running out of fuel is `Res.hang`.
* GPIO pads are modelled concretely (function select, direction, output value, pulls)
  with the documented effect of the SDK calls `gpio_set_dir`, `gpio_init`,
  `gpio_pull_up` and `pio_gpio_init`.
* The `DEBUG_PINS_SET` / `DEBUG_PINS_CLR` lines expand to nothing because
  `CU_SELECT_DEBUG_PINS(probe_timing)` is commented out, and `picoprobe_info`
  / `picoprobe_dump` only print; none of them is part of the model.
-/

namespace Picoprobe

/-! ## Machine arithmetic -/

/-- Number of values of a C `uint` / `uint32_t`. -/
def UINT_MOD : Nat := 4294967296

/-- Number of values of a `uint16_t`. -/
def UINT16_MOD : Nat := 65536

/-- Number of values of a `uint8_t`. -/
def UINT8_MOD : Nat := 256

/-- Unsigned 32-bit addition. -/
def u32_add (a b : Nat) : Nat := (a + b) % UINT_MOD

/-- Unsigned 32-bit subtraction (wraps around below zero). -/
def u32_sub (a b : Nat) : Nat := (a % UINT_MOD + (UINT_MOD - b % UINT_MOD)) % UINT_MOD

/-! ## Outcomes and the driver monad -/

/-- Outcome of running a piece of driver code. -/
inductive Res (α : Type) where
  | ok (a : α)
  | hang
  | undefined
  deriving DecidableEq, Repr

/-- Logical right shift of a `uint32_t`; undefined for a shift amount of 32 or more. -/
def u32_shr (x n : Nat) : Res Nat :=
  if n < 32 then .ok (x >>> n) else .undefined

/-- The static `struct _probe`. -/
structure Probe where
  offset : Nat
  initted : Nat
  deriving DecidableEq, Repr

/-- Function select of a pad (`enum gpio_function`), the values this driver uses. -/
inductive GpioFunc where
  | func_null
  | func_sio
  | func_pio0
  deriving DecidableEq, Repr

/-- The state of one GPIO pad as the SDK calls of this driver see it. -/
structure PinState where
  func : GpioFunc
  dir_out : Bool
  out_level : Bool
  pull_up : Bool
  pull_down : Bool
  deriving DecidableEq, Repr

/-- The `pio_sm_config` fields the driver sets. -/
structure SmConfig where
  sideset_base : Nat
  out_base : Nat
  out_count : Nat
  set_base : Nat
  set_count : Nat
  in_base : Nat
  out_shift_right : Bool
  autopull : Bool
  pull_threshold : Nat
  in_shift_right : Bool
  autopush : Bool
  push_threshold : Nat
  deriving DecidableEq, Repr

/-- State-changing SDK calls on the state machine, in the order the driver made them.
Only completed calls are recorded; reading the program counter changes nothing and
is not an event. -/
inductive Event where
  | sm_put (data : Nat)
  | sm_get (data : Nat)
  | sm_exec (instr : Nat)
  | sm_set_clkdiv_int_frac (div_int div_frac : Nat)
  | sm_set_enabled (enabled : Bool)
  | add_program (offset : Nat)
  | remove_program (offset : Nat)
  | sm_set_consecutive_pindirs (pin_base pin_count : Nat) (is_out : Bool)
  | sm_init (initial_pc : Nat) (config : SmConfig)
  deriving DecidableEq, Repr

/-- The PIO block with its state machine `PROBE_SM`, as far as the driver touches it.
`put_blocking`, `get_blocking` and `add_program` return `none` when the call never
returns; `tick` is the time that passes between two reads of the program counter. -/
structure Pio (σ : Type) where
  put_blocking : σ → Nat → Option σ
  get_blocking : σ → Option (Nat × σ)
  exec : σ → Nat → σ
  get_pc : σ → Nat
  tick : σ → σ
  set_clkdiv_int_frac : σ → Nat → Nat → σ
  set_enabled : σ → Bool → σ
  add_program : σ → Option (Nat × σ)
  remove_program : σ → Nat → σ
  set_consecutive_pindirs : σ → Nat → Nat → Bool → σ
  sm_init : σ → Nat → SmConfig → σ
  encode_jmp : Nat → Nat

/-- What the generated header `probe.pio.h` provides. -/
structure ProbeProgram where
  probe_offset_in_posedge : Nat
  probe_offset_in_idle : Nat
  probe_offset_out_negedge : Nat
  probe_offset_out_idle : Nat
  probe_program_get_default_config : Nat → SmConfig

/-- The pin assignment of `picoprobe_config.h`; `PROBE_PIN_RESET` and
`PROBE_PIN_SWDI` may be left undefined. -/
structure BoardConfig where
  PROBE_PIN_OFFSET : Nat
  PROBE_PIN_SWCLK : Nat
  PROBE_PIN_SWDIO : Nat
  PROBE_PIN_SWDI : Option Nat
  PROBE_PIN_RESET : Option Nat

/-- Everything the driver reads or writes. -/
structure World (σ : Type) where
  probe : Probe
  clk_sys_hz : Nat
  gpio : Nat → PinState
  sm : σ
  trace : List Event

/-- Driver code: a state transformer that also says how the run ended. -/
def Drv (σ α : Type) : Type := World σ → Res α × World σ

/-- Sequencing: the continuation runs only when the first part returned. -/
def Drv.bind {σ α β : Type} (m : Drv σ α) (f : α → Drv σ β) : Drv σ β := fun w =>
  match m w with
  | (.ok a, w1) => f a w1
  | (.hang, w1) => (.hang, w1)
  | (.undefined, w1) => (.undefined, w1)

/-- Returning a value changes nothing. -/
def Drv.pure {σ α : Type} (a : α) : Drv σ α := fun w => (.ok a, w)

instance {σ : Type} : Monad (Drv σ) where
  pure := Drv.pure
  bind := Drv.bind

/-! ## The SDK calls -/

section sdk
variable {σ : Type}

/-- SDK call `pio_sm_put_blocking(pio0, PROBE_SM, data)`. -/
def pio_sm_put_blocking (dev : Pio σ) (data : Nat) : Drv σ Unit := fun w =>
  match dev.put_blocking w.sm data with
  | some s => (.ok (), { w with sm := s, trace := w.trace ++ [.sm_put data] })
  | none => (.hang, w)

/-- SDK call `pio_sm_get_blocking(pio0, PROBE_SM)`; the result is a `uint32_t`. -/
def pio_sm_get_blocking (dev : Pio σ) : Drv σ Nat := fun w =>
  match dev.get_blocking w.sm with
  | some (v, s) =>
    (.ok (v % UINT_MOD), { w with sm := s, trace := w.trace ++ [.sm_get (v % UINT_MOD)] })
  | none => (.hang, w)

/-- SDK call `pio_sm_exec(pio0, PROBE_SM, instr)`. -/
def pio_sm_exec (dev : Pio σ) (instr : Nat) : Drv σ Unit := fun w =>
  (.ok (), { w with sm := dev.exec w.sm instr, trace := w.trace ++ [.sm_exec instr] })

/-- SDK call `pio_sm_set_clkdiv_int_frac(pio0, PROBE_SM, div_int, div_frac)`.  The SDK
declares `uint16_t div_int` and `uint8_t div_frac` (the widths of the hardware divider
fields), so the arguments are converted to these types: the call carries
`div_int mod 65536` and `div_frac mod 256`. -/
def pio_sm_set_clkdiv_int_frac (dev : Pio σ) (div_int div_frac : Nat) : Drv σ Unit := fun w =>
  (.ok (), { w with
    sm := dev.set_clkdiv_int_frac w.sm (div_int % UINT16_MOD) (div_frac % UINT8_MOD),
    trace := w.trace ++ [.sm_set_clkdiv_int_frac (div_int % UINT16_MOD) (div_frac % UINT8_MOD)] })

/-- SDK call `pio_sm_set_enabled(pio0, PROBE_SM, enabled)`. -/
def pio_sm_set_enabled (dev : Pio σ) (enabled : Bool) : Drv σ Unit := fun w =>
  (.ok (), { w with sm := dev.set_enabled w.sm enabled,
                    trace := w.trace ++ [.sm_set_enabled enabled] })

/-- SDK call `pio_add_program(pio0, &probe_program)`; returns the load offset. -/
def pio_add_program (dev : Pio σ) : Drv σ Nat := fun w =>
  match dev.add_program w.sm with
  | some (off, s) =>
    (.ok (off % UINT_MOD), { w with sm := s, trace := w.trace ++ [.add_program (off % UINT_MOD)] })
  | none => (.hang, w)

/-- SDK call `pio_remove_program(pio0, &probe_program, offset)`. -/
def pio_remove_program (dev : Pio σ) (offset : Nat) : Drv σ Unit := fun w =>
  (.ok (), { w with sm := dev.remove_program w.sm offset,
                    trace := w.trace ++ [.remove_program offset] })

/-- SDK call `pio_sm_set_consecutive_pindirs(pio0, PROBE_SM, pin_base, pin_count, is_out)`. -/
def pio_sm_set_consecutive_pindirs (dev : Pio σ) (pin_base pin_count : Nat) (is_out : Bool) :
    Drv σ Unit := fun w =>
  (.ok (), { w with sm := dev.set_consecutive_pindirs w.sm pin_base pin_count is_out,
                    trace := w.trace ++ [.sm_set_consecutive_pindirs pin_base pin_count is_out] })

/-- SDK call `pio_sm_init(pio0, PROBE_SM, initial_pc, &config)`. -/
def pio_sm_init (dev : Pio σ) (initial_pc : Nat) (config : SmConfig) : Drv σ Unit := fun w =>
  (.ok (), { w with sm := dev.sm_init w.sm initial_pc config,
                    trace := w.trace ++ [.sm_init initial_pc config] })

/-- SDK call `clock_get_hz(clk_sys)`; the result is a `uint32_t`. -/
def clock_get_hz : Drv σ Nat := fun w => (.ok (w.clk_sys_hz % UINT_MOD), w)

/-- Update of one pad. -/
def setPin (g : Nat → PinState) (pin : Nat) (p : PinState) : Nat → PinState :=
  fun q => if q = pin then p else g q

/-- SDK call `gpio_set_dir(pin, out)`: only the direction of that pin changes. -/
def gpio_set_dir (pin : Nat) (out : Bool) : Drv σ Unit := fun w =>
  (.ok (), { w with gpio := setPin w.gpio pin { (w.gpio pin) with dir_out := out } })

/-- SDK call `gpio_pull_up(pin)`: pull-up on, pull-down off. -/
def gpio_pull_up (pin : Nat) : Drv σ Unit := fun w =>
  (.ok (), { w with gpio := setPin w.gpio pin { (w.gpio pin) with pull_up := true, pull_down := false } })

/-- SDK call `gpio_init(pin)`: the pin becomes an input with its output value cleared, under
software control. -/
def gpio_init (pin : Nat) : Drv σ Unit := fun w =>
  let p : PinState := { (w.gpio pin) with dir_out := false, out_level := false, func := .func_sio }
  (.ok (), { w with gpio := setPin w.gpio pin p })

/-- SDK call `pio_gpio_init(pio0, pin)`: hands the pad to `pio0`. -/
def pio_gpio_init (pin : Nat) : Drv σ Unit := fun w =>
  (.ok (), { w with gpio := setPin w.gpio pin { (w.gpio pin) with func := .func_pio0 } })

/-- SDK call `sm_config_set_sideset_pins`. -/
def sm_config_set_sideset_pins (c : SmConfig) (sideset_base : Nat) : SmConfig :=
  { c with sideset_base := sideset_base }

/-- SDK call `sm_config_set_out_pins`. -/
def sm_config_set_out_pins (c : SmConfig) (out_base out_count : Nat) : SmConfig :=
  { c with out_base := out_base, out_count := out_count }

/-- SDK call `sm_config_set_set_pins`. -/
def sm_config_set_set_pins (c : SmConfig) (set_base set_count : Nat) : SmConfig :=
  { c with set_base := set_base, set_count := set_count }

/-- SDK call `sm_config_set_in_pins`. -/
def sm_config_set_in_pins (c : SmConfig) (in_base : Nat) : SmConfig :=
  { c with in_base := in_base }

/-- SDK call `sm_config_set_out_shift`. -/
def sm_config_set_out_shift (c : SmConfig) (shift_right autopull : Bool) (pull_threshold : Nat) :
    SmConfig :=
  { c with out_shift_right := shift_right, autopull := autopull, pull_threshold := pull_threshold }

/-- SDK call `sm_config_set_in_shift`. -/
def sm_config_set_in_shift (c : SmConfig) (shift_right autopush : Bool) (push_threshold : Nat) :
    SmConfig :=
  { c with in_shift_right := shift_right, autopush := autopush, push_threshold := push_threshold }

end sdk

/-! ## The driver, `probe.c` -/

section driver
variable {σ : Type}

/-- Unsigned division; dividing by zero is undefined. -/
def u32_div (a b : Nat) : Res Nat :=
  if b = 0 then .undefined else .ok (a / b)

/-- Lifting a pure outcome into driver code. -/
def liftRes (r : Res α) : Drv σ α := fun w => (r, w)

/-- The value computed for the local `uint32_t divider` of `probe_set_swclk_freq`
(`probe.c`, line 66): `clk_sys_freq_khz / freq_khz / 2`. -/
def swclk_divider (clk_sys_freq_khz freq_khz : Nat) : Res Nat :=
  match u32_div clk_sys_freq_khz freq_khz with
  | .ok q => .ok (q / 2)
  | .hang => .hang
  | .undefined => .undefined

/-- Driver function `probe_set_swclk_freq` (`probe.c`, lines 62-68). -/
def probe_set_swclk_freq (dev : Pio σ) (freq_khz : Nat) : Drv σ Unit := do
  let hz ← clock_get_hz
  let clk_sys_freq_khz := hz / 1000
  let divider ← liftRes (swclk_divider clk_sys_freq_khz freq_khz)
  pio_sm_set_clkdiv_int_frac dev divider 0

/-- Driver function `probe_assert_reset` (`probe.c`, lines 70-76); the body is compiled
only when `PROBE_PIN_RESET` is defined. -/
def probe_assert_reset (cfg : BoardConfig) (state : Bool) : Drv σ Unit :=
  match cfg.PROBE_PIN_RESET with
  | some pin => gpio_set_dir pin state
  | none => pure ()

/-- Driver function `probe_write_bits` (`probe.c`, lines 78-88). -/
def probe_write_bits (dev : Pio σ) (bit_count data_byte : Nat) : Drv σ Unit := do
  pio_sm_put_blocking dev (u32_sub bit_count 1)
  pio_sm_put_blocking dev data_byte
  let _ ← pio_sm_get_blocking dev
  pure ()

/-- Driver function `probe_read_bits` (`probe.c`, lines 90-102). -/
def probe_read_bits (dev : Pio σ) (bit_count : Nat) : Drv σ Nat := do
  pio_sm_put_blocking dev (u32_sub bit_count 1)
  let data ← pio_sm_get_blocking dev
  if bit_count < 32 then
    liftRes (u32_shr data (u32_sub 32 bit_count))
  else
    pure data

/-- The loop `while (pio_sm_get_pc(pio0, PROBE_SM) != probe.offset + idle);`, cut off
after `fuel` reads of the program counter. -/
def wait_pc (dev : Pio σ) (idle : Nat) : Nat → Drv σ Unit
  | 0 => fun w => (.hang, w)
  | fuel + 1 => fun w =>
    if dev.get_pc w.sm ≠ u32_add w.probe.offset idle then
      wait_pc dev idle fuel { w with sm := dev.tick w.sm }
    else
      (.ok (), w)

/-- Reading `probe.offset`. -/
def get_probe_offset : Drv σ Nat := fun w => (.ok w.probe.offset, w)

/-- Driver function `probe_read_mode` (`probe.c`, lines 104-107). -/
def probe_read_mode (dev : Pio σ) (prog : ProbeProgram) (fuel : Nat) : Drv σ Unit := do
  let offset ← get_probe_offset
  pio_sm_exec dev (dev.encode_jmp (u32_add offset prog.probe_offset_in_posedge))
  wait_pc dev prog.probe_offset_in_idle fuel

/-- Driver function `probe_write_mode` (`probe.c`, lines 109-112). -/
def probe_write_mode (dev : Pio σ) (prog : ProbeProgram) (fuel : Nat) : Drv σ Unit := do
  let offset ← get_probe_offset
  pio_sm_exec dev (dev.encode_jmp (u32_add offset prog.probe_offset_out_negedge))
  wait_pc dev prog.probe_offset_out_idle fuel

/-- Driver function `probe_gpio_init` (`probe.c`, lines 114-127). -/
def probe_gpio_init (cfg : BoardConfig) : Drv σ Unit := do
  match cfg.PROBE_PIN_RESET with
  | some pin =>
    gpio_pull_up pin
    gpio_init pin
  | none => pure ()
  pio_gpio_init cfg.PROBE_PIN_SWCLK
  pio_gpio_init cfg.PROBE_PIN_SWDIO
  gpio_pull_up cfg.PROBE_PIN_SWDIO

/-- Assignment to `probe.offset`. -/
def set_probe_offset (offset : Nat) : Drv σ Unit := fun w =>
  (.ok (), { w with probe := { w.probe with offset := offset } })

/-- Assignment to `probe.initted`. -/
def set_probe_initted (v : Nat) : Drv σ Unit := fun w =>
  (.ok (), { w with probe := { w.probe with initted := v } })

/-- Reading `probe.initted`. -/
def get_probe_initted : Drv σ Nat := fun w => (.ok w.probe.initted, w)

/-- Driver function `probe_init` (`probe.c`, lines 129-169). -/
def probe_init (dev : Pio σ) (prog : ProbeProgram) (cfg : BoardConfig) (fuel : Nat) :
    Drv σ Unit := do
  let initted ← get_probe_initted
  if initted = 0 then
    let offset ← pio_add_program dev
    set_probe_offset offset
    let sm_config := prog.probe_program_get_default_config offset
    let sm_config := sm_config_set_sideset_pins sm_config cfg.PROBE_PIN_SWCLK
    let sm_config := sm_config_set_out_pins sm_config cfg.PROBE_PIN_SWDIO 1
    let sm_config := sm_config_set_set_pins sm_config cfg.PROBE_PIN_SWDIO 1
    let sm_config :=
      match cfg.PROBE_PIN_SWDI with
      | some swdi => sm_config_set_in_pins sm_config swdi
      | none => sm_config_set_in_pins sm_config cfg.PROBE_PIN_SWDIO
    pio_sm_set_consecutive_pindirs dev cfg.PROBE_PIN_OFFSET 2 true
    let sm_config := sm_config_set_out_shift sm_config true false 0
    let sm_config := sm_config_set_in_shift sm_config true false 0
    pio_sm_init dev offset sm_config
    probe_set_swclk_freq dev 1000
    pio_sm_set_enabled dev true
    set_probe_initted 1
  probe_write_mode dev prog fuel

/-- Driver function `probe_deinit` (`probe.c`, lines 171-179). -/
def probe_deinit (dev : Pio σ) (prog : ProbeProgram) (fuel : Nat) : Drv σ Unit := do
  probe_read_mode dev prog fuel
  let initted ← get_probe_initted
  if initted ≠ 0 then
    pio_sm_set_enabled dev false
    let offset ← get_probe_offset
    pio_remove_program dev offset
    set_probe_initted 0

/-- The two lifecycle entry points. -/
inductive Call where
  | init
  | deinit
  deriving DecidableEq, Repr

/-- One lifecycle call. -/
def runCall (dev : Pio σ) (prog : ProbeProgram) (cfg : BoardConfig) (fuel : Nat) :
    Call → Drv σ Unit
  | .init => probe_init dev prog cfg fuel
  | .deinit => probe_deinit dev prog fuel

/-- A sequence of lifecycle calls, one after the other; a call that does not return
ends the run. -/
def runCalls (dev : Pio σ) (prog : ProbeProgram) (cfg : BoardConfig) (fuel : Nat) :
    List Call → Drv σ Unit
  | [] => pure ()
  | c :: cs => do
    runCall dev prog cfg fuel c
    runCalls dev prog cfg fuel cs

/-- Effect of one SDK call on where the program is loaded. -/
def installStep (st : Option Nat) : Event → Option Nat
  | .add_program off => some off
  | .remove_program off => if st = some off then none else st
  | _ => st

/-- Where the program is loaded according to the trace (oldest call first). -/
def installedAt (tr : List Event) : Option Nat := tr.foldl installStep none

/-- The write-mode jump `pio_sm_exec(pio0, PROBE_SM, pio_encode_jmp(offset + out_negedge))`. -/
def jmpWrite (dev : Pio σ) (prog : ProbeProgram) (offset : Nat) : Event :=
  .sm_exec (dev.encode_jmp (u32_add offset prog.probe_offset_out_negedge))

/-- The read-mode jump `pio_sm_exec(pio0, PROBE_SM, pio_encode_jmp(offset + in_posedge))`. -/
def jmpRead (dev : Pio σ) (prog : ProbeProgram) (offset : Nat) : Event :=
  .sm_exec (dev.encode_jmp (u32_add offset prog.probe_offset_in_posedge))

/-- The configuration `probe_init` hands to `pio_sm_init`. -/
def initConfig (prog : ProbeProgram) (cfg : BoardConfig) (offset : Nat) : SmConfig :=
  let c := prog.probe_program_get_default_config offset
  let c := sm_config_set_sideset_pins c cfg.PROBE_PIN_SWCLK
  let c := sm_config_set_out_pins c cfg.PROBE_PIN_SWDIO 1
  let c := sm_config_set_set_pins c cfg.PROBE_PIN_SWDIO 1
  let c :=
    match cfg.PROBE_PIN_SWDI with
    | some swdi => sm_config_set_in_pins c swdi
    | none => sm_config_set_in_pins c cfg.PROBE_PIN_SWDIO
  let c := sm_config_set_out_shift c true false 0
  sm_config_set_in_shift c true false 0

/-- The SDK calls of the installation block of `probe_init`, for load offset `offset`
and system clock `hz`. -/
def installEvents (prog : ProbeProgram) (cfg : BoardConfig) (hz offset : Nat) : List Event :=
  [.add_program offset,
   .sm_set_consecutive_pindirs cfg.PROBE_PIN_OFFSET 2 true,
   .sm_init offset (initConfig prog cfg offset),
   .sm_set_clkdiv_int_frac (hz % UINT_MOD / 1000 / 1000 / 2) 0,
   .sm_set_enabled true]

end driver

/-! ## A loop-back sequencer stub -/

/-- Modelled from the spec: the state of the loop-back sequencer stub of the round-trip
property, which is not part of `probe.c`.  `tx` is the input FIFO, `rx` the output
FIFO, `line` the bits written to the wire and not read back yet (oldest first). -/
structure Stub where
  pc : Nat
  tx : List Nat
  rx : List Nat
  line : List Bool
  enabled : Bool
  loaded : Bool
  div_int : Nat
  div_frac : Nat
  deriving DecidableEq, Repr

/-- Modelled from the spec: the stub shifts the written word out least-significant
bit first, `n` bits, from a right-shifting output register. -/
def shiftOut : Nat → Nat → List Bool
  | 0, _ => []
  | n + 1, osr => decide (osr % 2 = 1) :: shiftOut n (osr / 2)

/-- Modelled from the spec: the stub shifts each bit right into a 32-bit input
register (the new bit enters at bit 31). -/
def shiftIn : List Bool → Nat → Nat
  | [], isr => isr
  | b :: bs, isr => shiftIn bs (isr / 2 + (if b then 2147483648 else 0))

/-- Modelled from the spec: entry points of the stub program, a sixteen-instruction
program with the write loop first and the read loop after it. -/
def stubProgram : ProbeProgram where
  probe_offset_in_posedge := 9
  probe_offset_in_idle := 10
  probe_offset_out_negedge := 0
  probe_offset_out_idle := 1
  probe_program_get_default_config := fun _ =>
    { sideset_base := 0, out_base := 0, out_count := 32, set_base := 0, set_count := 5,
      in_base := 0, out_shift_right := true, autopull := false, pull_threshold := 0,
      in_shift_right := true, autopush := false, push_threshold := 0 }

/-- Modelled from the spec: where the stub loads its program. -/
def stubLoadOffset : Nat := 16

/-- Modelled from the spec: the stub runs until it waits for the input FIFO.  Idle in
write mode it takes a bit-count token and a data word, shifts `count + 1` bits onto
the line and pushes a completion word; idle in read mode it takes a bit-count token,
shifts `count + 1` bits from the line (an idle line reads high) into the input
register and pushes the register. -/
def Stub.run (s : Stub) : Stub :=
  if s.enabled = false then s
  else if s.pc = stubLoadOffset + 1 then
    match s.tx with
    | count :: data :: rest =>
      { s with tx := rest, line := s.line ++ shiftOut (count + 1) data, rx := s.rx ++ [0] }
    | _ => s
  else if s.pc = stubLoadOffset + 10 then
    match s.tx with
    | count :: rest =>
      { s with tx := rest,
               rx := s.rx ++ [shiftIn ((s.line ++ List.replicate (count + 1) true).take (count + 1)) 0],
               line := s.line.drop (count + 1) }
    | [] => s
  else s

/-- Modelled from the spec: between two reads of the program counter the enabled stub
moves from an entry point to the idle instruction after it. -/
def Stub.tick (s : Stub) : Stub :=
  if s.enabled = false then s
  else if s.pc = stubLoadOffset + 0 then { s with pc := stubLoadOffset + 1 }
  else if s.pc = stubLoadOffset + 9 then { s with pc := stubLoadOffset + 10 }
  else s

/-- Modelled from the spec: the loop-back stub as a PIO device.  The input FIFO holds
four words; a jump instruction is its five-bit target address. -/
def stubDev : Pio Stub where
  put_blocking s v :=
    if s.tx.length < 4 then some (Stub.run { s with tx := s.tx ++ [v] }) else none
  get_blocking s :=
    match s.rx with
    | v :: rest => some (v, { s with rx := rest })
    | [] => none
  exec s instr := { s with pc := instr % 32 }
  get_pc s := s.pc
  tick s := s.tick
  set_clkdiv_int_frac s i f := { s with div_int := i, div_frac := f }
  set_enabled s b := { s with enabled := b }
  add_program s := if s.loaded then none else some (stubLoadOffset, { s with loaded := true })
  remove_program s off := if off = stubLoadOffset then { s with loaded := false } else s
  set_consecutive_pindirs s _ _ _ := s
  sm_init s initial_pc _ := { s with pc := initial_pc, tx := [], rx := [] }
  encode_jmp addr := addr % 32

/-- The stub after reset: nothing loaded, disabled, FIFOs empty. -/
def stub0 : Stub :=
  { pc := 0, tx := [], rx := [], line := [], enabled := false, loaded := false,
    div_int := 1, div_frac := 0 }

/-- A pad after reset. -/
def pin0 : PinState :=
  { func := .func_null, dir_out := false, out_level := false, pull_up := false,
    pull_down := true }

/-- The board of the original picoprobe: SWCLK on pin 2, SWDIO on pin 3, reset on pin 6. -/
def board : BoardConfig :=
  { PROBE_PIN_OFFSET := 2, PROBE_PIN_SWCLK := 2, PROBE_PIN_SWDIO := 3,
    PROBE_PIN_SWDI := none, PROBE_PIN_RESET := some 6 }

/-- The same board without a reset line. -/
def boardNoReset : BoardConfig :=
  { PROBE_PIN_OFFSET := 2, PROBE_PIN_SWCLK := 2, PROBE_PIN_SWDIO := 3,
    PROBE_PIN_SWDI := none, PROBE_PIN_RESET := none }

/-- The state at power-up over device state `s`: `probe` is zero-initialised, no SDK
call has been made. -/
def World.start {σ : Type} (s : σ) (hz : Nat) (g : Nat → PinState) : World σ :=
  { probe := { offset := 0, initted := 0 }, clk_sys_hz := hz, gpio := g, sm := s, trace := [] }

/-- The stub at power-up with a 125 MHz system clock. -/
def stubWorld : World Stub := World.start stub0 125000000 (fun _ => pin0)


/-- The state machine after the installation block of `probe_init`, started in state
`s` right after `pio_add_program` returned `offset`. -/
def installedSm {σ : Type} (dev : Pio σ) (prog : ProbeProgram) (cfg : BoardConfig)
    (hz offset : Nat) (s : σ) : σ :=
  dev.set_enabled
    (dev.set_clkdiv_int_frac
      (dev.sm_init (dev.set_consecutive_pindirs s cfg.PROBE_PIN_OFFSET 2 true) offset
        (initConfig prog cfg offset))
      (hz % UINT_MOD / 1000 / 1000 / 2) 0)
    true

/-- The lifecycle invariant: the trace has the program loaded, at `probe.offset`,
exactly when `probe.initted` is set. -/
def LifecycleInv {σ : Type} (w : World σ) : Prop :=
  installedAt w.trace = if w.probe.initted ≠ 0 then some w.probe.offset else none

/-- A pad drives its line low: it is an output and its output value is 0. -/
def drivesLow (p : PinState) : Bool := p.dir_out && !p.out_level

/-- The stub at power-up with the system clock at 133 MHz. -/
def stubWorld133 : World Stub := World.start stub0 133000000 (fun _ => pin0)

/-- The stub after `probe_init`: program loaded, enabled, idle in write mode. -/
def stubReady : World Stub := (probe_init stubDev stubProgram board 2 stubWorld).2

/-- The stub after `probe_init`, `probe_write_bits(8, 0xAB)` and `probe_read_mode`. -/
def stubEcho : World Stub :=
  ((do
    probe_init stubDev stubProgram board 2
    probe_write_bits stubDev 8 0xAB
    probe_read_mode stubDev stubProgram 2 : Drv Stub Unit) stubWorld).2

/-- The initialised stub after `probe_read_mode`. -/
def stubIdleRead : World Stub := (probe_read_mode stubDev stubProgram 2 stubReady).2

/-- The initialised stub waiting at program counter `pc` with empty FIFOs and `line` on
the wire. -/
def stubIdle (pc : Nat) (line : List Bool) : Stub :=
  { pc := pc, tx := [], rx := [], line := line, enabled := true, loaded := true,
    div_int := 62, div_frac := 0 }

/-- The round trip of the loop-back property: `probe_init`, `probe_write_bits`,
`probe_read_mode`, `probe_read_bits` of the same width. -/
def roundTrip (fuel bit_count data : Nat) : Drv Stub Nat := do
  probe_init stubDev stubProgram board fuel
  probe_write_bits stubDev bit_count data
  probe_read_mode stubDev stubProgram fuel
  probe_read_bits stubDev bit_count

section proofs
variable {σ : Type}

theorem u32_sub_of_le (a b : Nat) (hb : b ≤ a) (ha : a < UINT_MOD) : u32_sub a b = a - b := by
  unfold u32_sub UINT_MOD at *
  omega

/-- C1: when the handshake of `probe_read_bits(bit_count)` completes and pops the
32-bit word `raw`, the result is `raw` itself for `bit_count = 32` and `raw` shifted
right by `32 - bit_count` for `bit_count < 32`. -/
theorem probe_read_bits_alignment (dev : Pio σ) (w : World σ) (bit_count raw : Nat) (s1 s2 : σ)
    (hlo : 1 ≤ bit_count) (hhi : bit_count ≤ 32) (hraw : raw < UINT_MOD)
    (hput : dev.put_blocking w.sm (bit_count - 1) = some s1)
    (hget : dev.get_blocking s1 = some (raw, s2)) :
    (bit_count = 32 → (probe_read_bits dev bit_count w).1 = .ok raw) ∧
    (bit_count < 32 → (probe_read_bits dev bit_count w).1 = .ok (raw >>> (32 - bit_count))) := by
  have h1 : u32_sub bit_count 1 = bit_count - 1 :=
    u32_sub_of_le _ _ hlo (by unfold UINT_MOD; omega)
  have h2 : u32_sub 32 bit_count = 32 - bit_count :=
    u32_sub_of_le _ _ hhi (by unfold UINT_MOD; omega)
  have h3 : raw % UINT_MOD = raw := Nat.mod_eq_of_lt hraw
  constructor
  · intro h32
    have hlt : ¬ bit_count < 32 := by omega
    simp [probe_read_bits, bind, Drv.bind, pio_sm_put_blocking, pio_sm_get_blocking, pure,
      Drv.pure, h1, hput, hget, h3, hlt]
  · intro hlt
    have h4 : 32 - bit_count < 32 := by omega
    simp [probe_read_bits, bind, Drv.bind, pio_sm_put_blocking, pio_sm_get_blocking, pure,
      Drv.pure, h1, h2, hput, hget, h3, hlt, liftRes, u32_shr, h4]

/-- C2: for `bit_count` in [1,32], on every device.  `probe_write_bits` pushes
`bit_count - 1`, then `data`, then pops one word and drops it: when the device takes
both words and delivers one, the call returns and the trace has grown by exactly
these three accesses; when the device blocks at the first push, the second push or
the pop, the call stops there with exactly the accesses made so far.
`probe_read_bits` pushes `bit_count - 1` and pops one word: when the device takes the
word and delivers one, the call returns the aligned word and the trace has grown by
exactly these two accesses; when the device blocks, the call stops with exactly the
accesses made so far.  No other FIFO access is made in any case. -/
theorem probe_bits_fifo_traffic (dev : Pio σ) (w : World σ) (bit_count data : Nat)
    (hlo : 1 ≤ bit_count) (hhi : bit_count ≤ 32) :
    (∀ s1 s2 x s3, dev.put_blocking w.sm (bit_count - 1) = some s1 →
      dev.put_blocking s1 data = some s2 →
      dev.get_blocking s2 = some (x, s3) →
      probe_write_bits dev bit_count data w =
        (.ok (), { w with
          sm := s3,
          trace := w.trace ++
            [.sm_put (bit_count - 1), .sm_put data, .sm_get (x % UINT_MOD)] })) ∧
    (dev.put_blocking w.sm (bit_count - 1) = none →
      probe_write_bits dev bit_count data w = (.hang, w)) ∧
    (∀ s1, dev.put_blocking w.sm (bit_count - 1) = some s1 →
      dev.put_blocking s1 data = none →
      probe_write_bits dev bit_count data w =
        (.hang, { w with sm := s1, trace := w.trace ++ [.sm_put (bit_count - 1)] })) ∧
    (∀ s1 s2, dev.put_blocking w.sm (bit_count - 1) = some s1 →
      dev.put_blocking s1 data = some s2 →
      dev.get_blocking s2 = none →
      probe_write_bits dev bit_count data w =
        (.hang, { w with
          sm := s2,
          trace := w.trace ++ [.sm_put (bit_count - 1), .sm_put data] })) ∧
    (∀ s1 x s2, dev.put_blocking w.sm (bit_count - 1) = some s1 →
      dev.get_blocking s1 = some (x, s2) →
      probe_read_bits dev bit_count w =
        (.ok (if bit_count < 32 then (x % UINT_MOD) >>> (32 - bit_count) else x % UINT_MOD),
          { w with
            sm := s2,
            trace := w.trace ++ [.sm_put (bit_count - 1), .sm_get (x % UINT_MOD)] })) ∧
    (dev.put_blocking w.sm (bit_count - 1) = none →
      probe_read_bits dev bit_count w = (.hang, w)) ∧
    (∀ s1, dev.put_blocking w.sm (bit_count - 1) = some s1 →
      dev.get_blocking s1 = none →
      probe_read_bits dev bit_count w =
        (.hang, { w with sm := s1, trace := w.trace ++ [.sm_put (bit_count - 1)] })) := by
  have h1 : u32_sub bit_count 1 = bit_count - 1 :=
    u32_sub_of_le _ _ hlo (by unfold UINT_MOD; omega)
  have h2 : u32_sub 32 bit_count = 32 - bit_count :=
    u32_sub_of_le _ _ hhi (by unfold UINT_MOD; omega)
  refine ⟨?_, ?_, ?_, ?_, ?_, ?_, ?_⟩
  · intro s1 s2 x s3 hp1 hp2 hg
    simp [probe_write_bits, bind, Drv.bind, pio_sm_put_blocking, pio_sm_get_blocking, pure,
      Drv.pure, h1, hp1, hp2, hg]
  · intro hp1
    simp [probe_write_bits, bind, Drv.bind, pio_sm_put_blocking, h1, hp1]
  · intro s1 hp1 hp2
    simp [probe_write_bits, bind, Drv.bind, pio_sm_put_blocking, h1, hp1, hp2]
  · intro s1 s2 hp1 hp2 hg
    simp [probe_write_bits, bind, Drv.bind, pio_sm_put_blocking, pio_sm_get_blocking, h1, hp1,
      hp2, hg]
  · intro s1 x s2 hp1 hg
    by_cases hlt : bit_count < 32
    · have h4 : 32 - bit_count < 32 := by omega
      simp [probe_read_bits, bind, Drv.bind, pio_sm_put_blocking, pio_sm_get_blocking, pure,
        Drv.pure, h1, h2, hp1, hg, hlt, liftRes, u32_shr, h4]
    · simp [probe_read_bits, bind, Drv.bind, pio_sm_put_blocking, pio_sm_get_blocking, pure,
        Drv.pure, h1, hp1, hg, hlt]
  · intro hp1
    simp [probe_read_bits, bind, Drv.bind, pio_sm_put_blocking, h1, hp1]
  · intro s1 hp1 hg
    simp [probe_read_bits, bind, Drv.bind, pio_sm_put_blocking, pio_sm_get_blocking, h1, hp1,
      hg]

/-- Witness of C1 (below 32 bits): on the stub that has taken in eight bits of `0xAB`,
the raw word `0xAB000000` is returned as `0xAB`. -/
theorem probe_read_bits_alignment_witness :
    (probe_read_bits stubDev 8 stubEcho).1 = .ok (0xAB000000 >>> (32 - 8)) :=
  (probe_read_bits_alignment stubDev stubEcho 8 0xAB000000
    { stubEcho.sm with rx := [0xAB000000], line := [] }
    { stubEcho.sm with rx := [], line := [] }
    (by decide) (by decide) (by decide) (by decide!) (by decide!)).2 (by decide)

/-- Witness of C2: on the initialised stub `probe_write_bits(8, 0xAB)` returns after
pushing 7 and `0xAB` and popping the completion word; on the stub that has taken these
bits in, `probe_read_bits(8)` returns after pushing 7 and popping `0xAB000000`. -/
theorem probe_bits_fifo_traffic_witness :
    probe_write_bits stubDev 8 0xAB stubReady =
      (.ok (), { stubReady with
        sm := stubIdle 17 (shiftOut 8 0xAB),
        trace := stubReady.trace ++ [.sm_put (8 - 1), .sm_put 0xAB, .sm_get (0 % UINT_MOD)] }) ∧
    probe_read_bits stubDev 8 stubEcho =
      (.ok (if 8 < 32 then (0xAB000000 % UINT_MOD) >>> (32 - 8) else 0xAB000000 % UINT_MOD),
        { stubEcho with
          sm := stubIdle 26 [],
          trace := stubEcho.trace ++ [.sm_put (8 - 1), .sm_get (0xAB000000 % UINT_MOD)] }) :=
  ⟨(probe_bits_fifo_traffic stubDev stubReady 8 0xAB (by decide) (by decide)).1
      { stubIdle 17 [] with tx := [7] }
      { stubIdle 17 (shiftOut 8 0xAB) with rx := [0] }
      0 (stubIdle 17 (shiftOut 8 0xAB)) (by decide!) (by decide!) (by decide!),
    (probe_bits_fifo_traffic stubDev stubEcho 8 0xAB (by decide) (by decide)).2.2.2.2.1
      { stubIdle 26 [] with rx := [0xAB000000] }
      0xAB000000 (stubIdle 26 []) (by decide!) (by decide!)⟩

/-- For `freq_khz > 0` the local `divider` is `clk_sys_freq_khz / freq_khz / 2`, and
`probe_set_swclk_freq` is the one SDK call that passes it on with fraction 0. -/
theorem probe_set_swclk_freq_eq (dev : Pio σ) (w : World σ) (freq_khz : Nat)
    (hf : 0 < freq_khz) :
    swclk_divider (w.clk_sys_hz % UINT_MOD / 1000) freq_khz =
      .ok (w.clk_sys_hz % UINT_MOD / 1000 / freq_khz / 2) ∧
    probe_set_swclk_freq dev freq_khz w =
      pio_sm_set_clkdiv_int_frac dev (w.clk_sys_hz % UINT_MOD / 1000 / freq_khz / 2) 0 w := by
  have hne : freq_khz ≠ 0 := by omega
  have hd : swclk_divider (w.clk_sys_hz % UINT_MOD / 1000) freq_khz =
      .ok (w.clk_sys_hz % UINT_MOD / 1000 / freq_khz / 2) := by
    simp [swclk_divider, u32_div, hne]
  refine ⟨hd, ?_⟩
  simp [probe_set_swclk_freq, bind, Drv.bind, clock_get_hz, liftRes, hd]

/-- Counterexample to C3: with the system clock at 133 MHz, `probe_set_swclk_freq(1)`
computes the divider `133000 / 1 / 2 = 66500`, and the SDK call, whose integer part is
a `uint16_t`, carries `66500 mod 65536 = 964`. -/
theorem swclk_divider_wraps_at_133MHz :
    stubWorld133.clk_sys_hz / 1000 / 1 / 2 = 66500 ∧
    (probe_set_swclk_freq stubDev 1 stubWorld133).2.trace = [.sm_set_clkdiv_int_frac 964 0] ∧
    (probe_set_swclk_freq stubDev 1 stubWorld133).2.trace ≠
      stubWorld133.trace ++ [.sm_set_clkdiv_int_frac (stubWorld133.clk_sys_hz / 1000 / 1 / 2) 0] := by
  decide

/-- C3 as amended: for a 32-bit system clock of `hz` Hz and `freq_khz > 0` whose
divider `hz / 1000 / freq_khz / 2` (floor divisions) is below 65536,
`probe_set_swclk_freq(freq_khz)` returns after exactly one call
`pio_sm_set_clkdiv_int_frac` with that integer part and fractional part 0; with
`hz / 1000 = 125000` and `freq_khz = 1000` the integer part is 62. -/
theorem probe_set_swclk_freq_programs (dev : Pio σ) (w : World σ) (freq_khz : Nat)
    (hf : 0 < freq_khz) (hz : w.clk_sys_hz < UINT_MOD)
    (hfit : w.clk_sys_hz / 1000 / freq_khz / 2 < UINT16_MOD) :
    probe_set_swclk_freq dev freq_khz w =
      (.ok (), { w with
        sm := dev.set_clkdiv_int_frac w.sm (w.clk_sys_hz / 1000 / freq_khz / 2) 0,
        trace := w.trace ++ [.sm_set_clkdiv_int_frac (w.clk_sys_hz / 1000 / freq_khz / 2) 0] }) ∧
    (w.clk_sys_hz / 1000 = 125000 → freq_khz = 1000 →
      (probe_set_swclk_freq dev freq_khz w).2.trace =
        w.trace ++ [.sm_set_clkdiv_int_frac 62 0]) := by
  have hm : w.clk_sys_hz % UINT_MOD = w.clk_sys_hz := Nat.mod_eq_of_lt hz
  have hw : w.clk_sys_hz / 1000 / freq_khz / 2 % UINT16_MOD = w.clk_sys_hz / 1000 / freq_khz / 2 :=
    Nat.mod_eq_of_lt hfit
  have key : probe_set_swclk_freq dev freq_khz w =
      (.ok (), { w with
        sm := dev.set_clkdiv_int_frac w.sm (w.clk_sys_hz / 1000 / freq_khz / 2) 0,
        trace := w.trace ++ [.sm_set_clkdiv_int_frac (w.clk_sys_hz / 1000 / freq_khz / 2) 0] }) := by
    rw [(probe_set_swclk_freq_eq dev w freq_khz hf).2, hm]
    simp [pio_sm_set_clkdiv_int_frac, hw, UINT8_MOD]
  refine ⟨key, ?_⟩
  intro hk h1000
  rw [key, hk, h1000]

/-- Witness of C3 as amended: at 125 MHz, `probe_set_swclk_freq(1000)` programs
divider 62. -/
theorem probe_set_swclk_freq_programs_witness :
    (probe_set_swclk_freq stubDev 1000 stubWorld).2.trace = [.sm_set_clkdiv_int_frac 62 0] :=
  (probe_set_swclk_freq_programs stubDev stubWorld 1000 (by decide) (by decide)
    (by decide)).2 rfl rfl

/-- C10: with `system_khz = hz / 1000` and `0 < f1 ≤ f2`, the dividers `d1`, `d2` that
`probe_set_swclk_freq` computes for `f1` and `f2` (the values of its local `divider`,
which it hands to the SDK call) satisfy `d1 = system_khz / (2 * f1)`,
`d1 ≤ system_khz / 2`, `d2 ≤ d1`, and `d1 = 0` exactly when `2 * f1 > system_khz`;
and whenever `2 * f1 > system_khz` the divider programmed is 0. -/
theorem swclk_divider_bounds (dev : Pio σ) (w : World σ) (f1 f2 : Nat)
    (hf : 0 < f1) (hle : f1 ≤ f2) (hz : w.clk_sys_hz < UINT_MOD) :
    ∃ d1 d2,
      swclk_divider (w.clk_sys_hz / 1000) f1 = .ok d1 ∧
      swclk_divider (w.clk_sys_hz / 1000) f2 = .ok d2 ∧
      probe_set_swclk_freq dev f1 w = pio_sm_set_clkdiv_int_frac dev d1 0 w ∧
      probe_set_swclk_freq dev f2 w = pio_sm_set_clkdiv_int_frac dev d2 0 w ∧
      d1 = w.clk_sys_hz / 1000 / (2 * f1) ∧
      d1 ≤ w.clk_sys_hz / 1000 / 2 ∧
      d2 ≤ d1 ∧
      (d1 = 0 ↔ 2 * f1 > w.clk_sys_hz / 1000) ∧
      (2 * f1 > w.clk_sys_hz / 1000 →
        (probe_set_swclk_freq dev f1 w).2.trace = w.trace ++ [.sm_set_clkdiv_int_frac 0 0]) := by
  have hf2 : 0 < f2 := by omega
  have hm : w.clk_sys_hz % UINT_MOD = w.clk_sys_hz := Nat.mod_eq_of_lt hz
  obtain ⟨a1, b1⟩ := probe_set_swclk_freq_eq dev w f1 hf
  obtain ⟨a2, b2⟩ := probe_set_swclk_freq_eq dev w f2 hf2
  rw [hm] at a1 b1 a2 b2
  have hzero : w.clk_sys_hz / 1000 / f1 / 2 = 0 ↔ 2 * f1 > w.clk_sys_hz / 1000 := by
    rw [Nat.div_div_eq_div_mul, Nat.mul_comm f1 2, Nat.div_eq_zero_iff (by omega)]
  refine ⟨w.clk_sys_hz / 1000 / f1 / 2, w.clk_sys_hz / 1000 / f2 / 2, a1, a2, b1, b2,
    ?_, ?_, ?_, hzero, ?_⟩
  · rw [Nat.div_div_eq_div_mul, Nat.mul_comm f1 2]
  · rw [Nat.div_div_eq_div_mul, Nat.mul_comm f1 2, ← Nat.div_div_eq_div_mul]
    exact Nat.div_le_self _ _
  · exact Nat.div_le_div_right (Nat.div_le_div_left hle hf)
  · intro h
    rw [b1, hzero.mpr h]
    simp [pio_sm_set_clkdiv_int_frac]

/-- Witness of C10: at 125 MHz, the dividers for 1000 kHz and 100000 kHz. -/
theorem swclk_divider_bounds_witness :
    ∃ d1 d2,
      swclk_divider (stubWorld.clk_sys_hz / 1000) 1000 = .ok d1 ∧
      swclk_divider (stubWorld.clk_sys_hz / 1000) 100000 = .ok d2 ∧
      probe_set_swclk_freq stubDev 1000 stubWorld =
        pio_sm_set_clkdiv_int_frac stubDev d1 0 stubWorld ∧
      probe_set_swclk_freq stubDev 100000 stubWorld =
        pio_sm_set_clkdiv_int_frac stubDev d2 0 stubWorld ∧
      d1 = stubWorld.clk_sys_hz / 1000 / (2 * 1000) ∧
      d1 ≤ stubWorld.clk_sys_hz / 1000 / 2 ∧
      d2 ≤ d1 ∧
      (d1 = 0 ↔ 2 * 1000 > stubWorld.clk_sys_hz / 1000) ∧
      (2 * 1000 > stubWorld.clk_sys_hz / 1000 →
        (probe_set_swclk_freq stubDev 1000 stubWorld).2.trace =
          stubWorld.trace ++ [.sm_set_clkdiv_int_frac 0 0]) :=
  swclk_divider_bounds stubDev stubWorld 1000 100000 (by decide) (by decide) (by decide)

/-- C8: with a reset line on `pin`, `probe_assert_reset(true)` makes the pin an output,
which drives the line low because `probe_gpio_init` (and any state with a cleared
output value) leaves the output value 0; `probe_assert_reset(false)` makes it an
input; from every state, assert followed by deassert leaves it an input; neither call
touches another pin, any other attribute of the reset pin, the probe state, the clock
or the state machine.  Without a reset line the call changes nothing. -/
theorem probe_assert_reset_effect (cfg : BoardConfig) (w : World σ) :
    (∀ pin, cfg.PROBE_PIN_RESET = some pin →
      ((probe_assert_reset cfg true w).2.gpio pin).dir_out = true ∧
      drivesLow ((probe_assert_reset cfg true (probe_gpio_init cfg w).2).2.gpio pin) = true ∧
      ((w.gpio pin).out_level = false →
        drivesLow ((probe_assert_reset cfg true w).2.gpio pin) = true) ∧
      ((probe_assert_reset cfg false w).2.gpio pin).dir_out = false ∧
      ((probe_assert_reset cfg false (probe_assert_reset cfg true w).2).2.gpio pin).dir_out
        = false ∧
      ∀ state : Bool,
        (probe_assert_reset cfg state w).1 = .ok () ∧
        (∀ q, q ≠ pin → (probe_assert_reset cfg state w).2.gpio q = w.gpio q) ∧
        (probe_assert_reset cfg state w).2.gpio pin = { (w.gpio pin) with dir_out := state } ∧
        (probe_assert_reset cfg state w).2.probe = w.probe ∧
        (probe_assert_reset cfg state w).2.sm = w.sm ∧
        (probe_assert_reset cfg state w).2.trace = w.trace ∧
        (probe_assert_reset cfg state w).2.clk_sys_hz = w.clk_sys_hz) ∧
    (cfg.PROBE_PIN_RESET = none →
      ∀ state : Bool, probe_assert_reset cfg state w = (.ok (), w)) := by
  constructor
  · intro pin hpin
    refine ⟨?_, ?_, ?_, ?_, ?_, ?_⟩
    · simp [probe_assert_reset, hpin, gpio_set_dir, setPin]
    · simp [probe_assert_reset, probe_gpio_init, hpin, gpio_set_dir, gpio_pull_up, gpio_init,
        pio_gpio_init, setPin, drivesLow, bind, Drv.bind]
      split_ifs <;> first | rfl | omega
    · intro hl
      simp [probe_assert_reset, hpin, gpio_set_dir, setPin, drivesLow, hl]
    · simp [probe_assert_reset, hpin, gpio_set_dir, setPin]
    · simp [probe_assert_reset, hpin, gpio_set_dir, setPin]
    · intro state
      refine ⟨?_, ?_, ?_, ?_, ?_, ?_, ?_⟩ <;>
        simp +contextual [probe_assert_reset, hpin, gpio_set_dir, setPin]
  · intro hnone state
    simp [probe_assert_reset, hnone, pure, Drv.pure]

/-- Witness of C8: the board with reset on pin 6, and the board without a reset line. -/
theorem probe_assert_reset_effect_witness :
    (((probe_assert_reset board true stubWorld).2.gpio 6).dir_out = true ∧
      drivesLow ((probe_assert_reset board true (probe_gpio_init board stubWorld).2).2.gpio 6)
        = true ∧
      drivesLow ((probe_assert_reset board true stubWorld).2.gpio 6) = true ∧
      ((probe_assert_reset board false stubWorld).2.gpio 6).dir_out = false ∧
      ((probe_assert_reset board false (probe_assert_reset board true stubWorld).2).2.gpio 6).dir_out
        = false) ∧
    probe_assert_reset boardNoReset true stubWorld = (.ok (), stubWorld) :=
  have h := (probe_assert_reset_effect board stubWorld).1 6 rfl
  ⟨⟨h.1, h.2.1, h.2.2.1 rfl, h.2.2.2.1, h.2.2.2.2.1⟩,
    (probe_assert_reset_effect boardNoReset stubWorld).2 rfl true⟩

/-- The polling loop changes nothing but the state machine, never ends in undefined
behaviour, and when it returns the program counter is `probe.offset + idle`. -/
theorem wait_pc_spec (dev : Pio σ) (idle : Nat) (fuel : Nat) (w : World σ) :
    (wait_pc dev idle fuel w).2.probe = w.probe ∧
    (wait_pc dev idle fuel w).2.trace = w.trace ∧
    (wait_pc dev idle fuel w).2.gpio = w.gpio ∧
    (wait_pc dev idle fuel w).2.clk_sys_hz = w.clk_sys_hz ∧
    (wait_pc dev idle fuel w).1 ≠ .undefined ∧
    ((wait_pc dev idle fuel w).1 = .ok () →
      dev.get_pc (wait_pc dev idle fuel w).2.sm = u32_add w.probe.offset idle) := by
  induction fuel generalizing w with
  | zero => simp [wait_pc]
  | succ n ih =>
    by_cases h : dev.get_pc w.sm = u32_add w.probe.offset idle
    · simp [wait_pc, h]
    · have := ih { w with sm := dev.tick w.sm }
      simp only [wait_pc, ne_eq, h, not_false_eq_true, ↓reduceIte]
      exact this

/-- Function `probe_write_mode` is one forced jump to `out_negedge` followed by the wait for
`out_idle`. -/
theorem probe_write_mode_eq (dev : Pio σ) (prog : ProbeProgram) (fuel : Nat) (w : World σ) :
    probe_write_mode dev prog fuel w =
      wait_pc dev prog.probe_offset_out_idle fuel
        { w with
          sm := dev.exec w.sm
            (dev.encode_jmp (u32_add w.probe.offset prog.probe_offset_out_negedge)),
          trace := w.trace ++ [jmpWrite dev prog w.probe.offset] } := by
  simp [probe_write_mode, bind, Drv.bind, get_probe_offset, pio_sm_exec, jmpWrite]

/-- Function `probe_read_mode` is one forced jump to `in_posedge` followed by the wait for
`in_idle`. -/
theorem probe_read_mode_eq (dev : Pio σ) (prog : ProbeProgram) (fuel : Nat) (w : World σ) :
    probe_read_mode dev prog fuel w =
      wait_pc dev prog.probe_offset_in_idle fuel
        { w with
          sm := dev.exec w.sm
            (dev.encode_jmp (u32_add w.probe.offset prog.probe_offset_in_posedge)),
          trace := w.trace ++ [jmpRead dev prog w.probe.offset] } := by
  simp [probe_read_mode, bind, Drv.bind, get_probe_offset, pio_sm_exec, jmpRead]

/-- Effect of `probe_write_mode` on every part of the state. -/
theorem probe_write_mode_spec (dev : Pio σ) (prog : ProbeProgram) (fuel : Nat) (w : World σ) :
    (probe_write_mode dev prog fuel w).2.probe = w.probe ∧
    (probe_write_mode dev prog fuel w).2.trace = w.trace ++ [jmpWrite dev prog w.probe.offset] ∧
    (probe_write_mode dev prog fuel w).2.gpio = w.gpio ∧
    (probe_write_mode dev prog fuel w).2.clk_sys_hz = w.clk_sys_hz ∧
    (probe_write_mode dev prog fuel w).1 ≠ .undefined ∧
    ((probe_write_mode dev prog fuel w).1 = .ok () →
      dev.get_pc (probe_write_mode dev prog fuel w).2.sm =
        u32_add w.probe.offset prog.probe_offset_out_idle) := by
  rw [probe_write_mode_eq]
  exact wait_pc_spec dev prog.probe_offset_out_idle fuel _

/-- Effect of `probe_read_mode` on every part of the state. -/
theorem probe_read_mode_spec (dev : Pio σ) (prog : ProbeProgram) (fuel : Nat) (w : World σ) :
    (probe_read_mode dev prog fuel w).2.probe = w.probe ∧
    (probe_read_mode dev prog fuel w).2.trace = w.trace ++ [jmpRead dev prog w.probe.offset] ∧
    (probe_read_mode dev prog fuel w).2.gpio = w.gpio ∧
    (probe_read_mode dev prog fuel w).2.clk_sys_hz = w.clk_sys_hz ∧
    (probe_read_mode dev prog fuel w).1 ≠ .undefined ∧
    ((probe_read_mode dev prog fuel w).1 = .ok () →
      dev.get_pc (probe_read_mode dev prog fuel w).2.sm =
        u32_add w.probe.offset prog.probe_offset_in_idle) := by
  rw [probe_read_mode_eq]
  exact wait_pc_spec dev prog.probe_offset_in_idle fuel _

/-- Function `probe_init` on an initialised probe only enters write mode. -/
theorem probe_init_of_initted (dev : Pio σ) (prog : ProbeProgram) (cfg : BoardConfig)
    (fuel : Nat) (w : World σ) (h : w.probe.initted ≠ 0) :
    probe_init dev prog cfg fuel w = probe_write_mode dev prog fuel w := by
  simp [probe_init, bind, Drv.bind, get_probe_initted, h, pure, Drv.pure]

/-- Function `probe_init` on an uninitialised probe stops where `pio_add_program` does not
return. -/
theorem probe_init_of_add_none (dev : Pio σ) (prog : ProbeProgram) (cfg : BoardConfig)
    (fuel : Nat) (w : World σ) (h : w.probe.initted = 0) (ha : dev.add_program w.sm = none) :
    probe_init dev prog cfg fuel w = (.hang, w) := by
  simp [probe_init, bind, Drv.bind, get_probe_initted, h, pio_add_program, ha]

/-- Function `probe_init` on an uninitialised probe: the installation block, then write mode. -/
theorem probe_init_of_add_some (dev : Pio σ) (prog : ProbeProgram) (cfg : BoardConfig)
    (fuel : Nat) (w : World σ) (off : Nat) (s : σ) (h : w.probe.initted = 0)
    (ha : dev.add_program w.sm = some (off, s)) :
    probe_init dev prog cfg fuel w =
      probe_write_mode dev prog fuel
        { probe := { offset := off % UINT_MOD, initted := 1 },
          clk_sys_hz := w.clk_sys_hz,
          gpio := w.gpio,
          sm := installedSm dev prog cfg w.clk_sys_hz (off % UINT_MOD) s,
          trace := w.trace ++ installEvents prog cfg w.clk_sys_hz (off % UINT_MOD) } := by
  have hfit : w.clk_sys_hz % UINT_MOD / 1000 / 1000 / 2 % UINT16_MOD
      = w.clk_sys_hz % UINT_MOD / 1000 / 1000 / 2 := by
    unfold UINT_MOD UINT16_MOD
    omega
  simp [probe_init, bind, Drv.bind, get_probe_initted, h, pio_add_program, ha, set_probe_offset,
    pio_sm_set_consecutive_pindirs, pio_sm_init, probe_set_swclk_freq, clock_get_hz, liftRes,
    swclk_divider, u32_div, pio_sm_set_clkdiv_int_frac, pio_sm_set_enabled, set_probe_initted,
    installedSm, installEvents, initConfig, hfit, UINT8_MOD]

/-- Function `probe_deinit` stops where `probe_read_mode` does not return. -/
theorem probe_deinit_of_not_ok (dev : Pio σ) (prog : ProbeProgram) (fuel : Nat) (w : World σ)
    (h : (probe_read_mode dev prog fuel w).1 ≠ .ok ()) :
    probe_deinit dev prog fuel w = probe_read_mode dev prog fuel w := by
  simp only [probe_deinit, bind, Drv.bind]
  rcases hr : probe_read_mode dev prog fuel w with ⟨r, w1⟩
  cases r with
  | ok a => simp [hr] at h
  | hang => rfl
  | undefined => rfl

/-- Function `probe_deinit` after `probe_read_mode` returned in state `w1`. -/
theorem probe_deinit_of_ok (dev : Pio σ) (prog : ProbeProgram) (fuel : Nat) (w w1 : World σ)
    (h : probe_read_mode dev prog fuel w = (.ok (), w1)) :
    probe_deinit dev prog fuel w =
      if w.probe.initted ≠ 0 then
        (.ok (), { w1 with
          probe := { w.probe with initted := 0 },
          sm := dev.remove_program (dev.set_enabled w1.sm false) w.probe.offset,
          trace := w1.trace ++ [.sm_set_enabled false, .remove_program w.probe.offset] })
      else (.ok (), w1) := by
  have hp : w1.probe = w.probe := by
    have := (probe_read_mode_spec dev prog fuel w).1
    rw [h] at this
    exact this
  by_cases hi : w.probe.initted = 0
  · simp [probe_deinit, bind, Drv.bind, h, get_probe_initted, hp, hi, pure, Drv.pure]
  · simp [probe_deinit, bind, Drv.bind, h, get_probe_initted, hp, hi, pio_sm_set_enabled,
      get_probe_offset, pio_remove_program, set_probe_initted]

/-- C5: whenever `probe_init` returns, the last SDK call in the trace is the forced
jump to `out_negedge` and the program counter is `probe.offset + out_idle`.
`probe_deinit` first jumps to `in_posedge`; when the wait for `in_idle` does not
complete nothing else happens, and when it completes in a state `w1` (program counter
`probe.offset + in_idle`) the disable and the removal are applied to `w1`, after the
jump in the trace, and only for an initialised probe. -/
theorem init_deinit_mode (dev : Pio σ) (prog : ProbeProgram) (cfg : BoardConfig) (fuel : Nat)
    (w : World σ) :
    (∀ w', probe_init dev prog cfg fuel w = (.ok (), w') →
      w'.trace.getLast? = some (jmpWrite dev prog w'.probe.offset) ∧
      dev.get_pc w'.sm = u32_add w'.probe.offset prog.probe_offset_out_idle) ∧
    ((probe_read_mode dev prog fuel w).1 ≠ .ok () →
      probe_deinit dev prog fuel w = probe_read_mode dev prog fuel w ∧
      (probe_deinit dev prog fuel w).2.trace = w.trace ++ [jmpRead dev prog w.probe.offset]) ∧
    (∀ w1, probe_read_mode dev prog fuel w = (.ok (), w1) →
      w1.trace = w.trace ++ [jmpRead dev prog w.probe.offset] ∧
      dev.get_pc w1.sm = u32_add w.probe.offset prog.probe_offset_in_idle ∧
      (w.probe.initted ≠ 0 →
        probe_deinit dev prog fuel w =
          (.ok (), { w1 with
            probe := { w.probe with initted := 0 },
            sm := dev.remove_program (dev.set_enabled w1.sm false) w.probe.offset,
            trace := w1.trace ++ [.sm_set_enabled false, .remove_program w.probe.offset] })) ∧
      (w.probe.initted = 0 → probe_deinit dev prog fuel w = (.ok (), w1))) := by
  refine ⟨?_, ?_, ?_⟩
  · have key : ∀ (v w' : World σ), probe_write_mode dev prog fuel v = (.ok (), w') →
        w'.trace.getLast? = some (jmpWrite dev prog w'.probe.offset) ∧
        dev.get_pc w'.sm = u32_add w'.probe.offset prog.probe_offset_out_idle := by
      intro v w' hv
      obtain ⟨h1, h2, -, -, -, h6⟩ := probe_write_mode_spec dev prog fuel v
      rw [hv] at h1 h2 h6
      simp only at h1 h2 h6
      rw [h2, h1]
      exact ⟨by simp, h6 trivial⟩
    intro w' hw
    by_cases hi : w.probe.initted = 0
    · cases ha : dev.add_program w.sm with
      | none =>
        rw [probe_init_of_add_none dev prog cfg fuel w hi ha] at hw
        simp at hw
      | some p =>
        rw [probe_init_of_add_some dev prog cfg fuel w p.1 p.2 hi ha] at hw
        exact key _ _ hw
    · rw [probe_init_of_initted dev prog cfg fuel w hi] at hw
      exact key _ _ hw
  · intro h
    have he := probe_deinit_of_not_ok dev prog fuel w h
    exact ⟨he, by rw [he]; exact (probe_read_mode_spec dev prog fuel w).2.1⟩
  · intro w1 h
    obtain ⟨-, h2, -, -, -, h6⟩ := probe_read_mode_spec dev prog fuel w
    rw [h] at h2 h6
    have he := probe_deinit_of_ok dev prog fuel w w1 h
    refine ⟨h2, h6 rfl, ?_, ?_⟩
    · intro hi
      rw [he, if_pos hi]
    · intro hi
      rw [he, if_neg (by simpa using hi)]

/-- A run that returned is the pair of `ok` and its final state. -/
theorem eq_ok_pair {α : Type} (p : Res Unit × α) (h : p.1 = .ok ()) : p = (.ok (), p.2) :=
  Prod.ext h rfl

/-- On the stub at power-up `probe_init` returns, in state `stubReady`. -/
theorem stubReady_run :
    probe_init stubDev stubProgram board 2 stubWorld = (.ok (), stubReady) := by
  unfold stubReady
  exact eq_ok_pair _ (by decide!)

/-- On the initialised stub `probe_read_mode` returns, in state `stubIdleRead`. -/
theorem stubIdleRead_run :
    probe_read_mode stubDev stubProgram 2 stubReady = (.ok (), stubIdleRead) := by
  unfold stubIdleRead
  exact eq_ok_pair _ (by decide!)

/-- The initialised stub has `probe.initted` set. -/
theorem stubReady_initted : stubReady.probe.initted ≠ 0 := by decide!

/-- Witness of C5: `probe_init` on the stub at power-up, and `probe_deinit` on the
initialised stub. -/
theorem init_deinit_mode_witness :
    (stubReady.trace.getLast? = some (jmpWrite stubDev stubProgram stubReady.probe.offset) ∧
      stubDev.get_pc stubReady.sm =
        u32_add stubReady.probe.offset stubProgram.probe_offset_out_idle) ∧
    probe_deinit stubDev stubProgram 2 stubReady =
      (.ok (), { stubIdleRead with
        probe := { stubReady.probe with initted := 0 },
        sm := stubDev.remove_program (stubDev.set_enabled stubIdleRead.sm false)
          stubReady.probe.offset,
        trace := stubIdleRead.trace ++
          [.sm_set_enabled false, .remove_program stubReady.probe.offset] }) :=
  ⟨(init_deinit_mode stubDev stubProgram board 2 stubWorld).1 stubReady stubReady_run,
    ((init_deinit_mode stubDev stubProgram board 2 stubReady).2.2 stubIdleRead
      stubIdleRead_run).2.2.1 stubReady_initted⟩

/-- An SDK call other than loading or removing the program leaves the load state. -/
theorem installedAt_append (tr evs : List Event) :
    installedAt (tr ++ evs) = evs.foldl installStep (installedAt tr) := by
  simp [installedAt, List.foldl_append]

/-- Function `probe_init` keeps the lifecycle invariant, however it ends. -/
theorem probe_init_inv (dev : Pio σ) (prog : ProbeProgram) (cfg : BoardConfig) (fuel : Nat)
    (w : World σ) (h : LifecycleInv w) : LifecycleInv (probe_init dev prog cfg fuel w).2 := by
  unfold LifecycleInv at *
  by_cases hi : w.probe.initted = 0
  · cases ha : dev.add_program w.sm with
    | none =>
      rw [probe_init_of_add_none dev prog cfg fuel w hi ha]
      exact h
    | some p =>
      rw [probe_init_of_add_some dev prog cfg fuel w p.1 p.2 hi ha]
      obtain ⟨h1, h2, -⟩ := probe_write_mode_spec dev prog fuel
        { probe := { offset := p.1 % UINT_MOD, initted := 1 },
          clk_sys_hz := w.clk_sys_hz,
          gpio := w.gpio,
          sm := installedSm dev prog cfg w.clk_sys_hz (p.1 % UINT_MOD) p.2,
          trace := w.trace ++ installEvents prog cfg w.clk_sys_hz (p.1 % UINT_MOD) }
      rw [h1, h2]
      simp [installedAt_append, installEvents, installStep, jmpWrite]
  · rw [probe_init_of_initted dev prog cfg fuel w hi]
    obtain ⟨h1, h2, -⟩ := probe_write_mode_spec dev prog fuel w
    rw [h1, h2, installedAt_append, h]
    simp [installStep, jmpWrite]

/-- Function `probe_deinit` keeps the lifecycle invariant, however it ends. -/
theorem probe_deinit_inv (dev : Pio σ) (prog : ProbeProgram) (fuel : Nat)
    (w : World σ) (h : LifecycleInv w) : LifecycleInv (probe_deinit dev prog fuel w).2 := by
  unfold LifecycleInv at *
  obtain ⟨h1, h2, -⟩ := probe_read_mode_spec dev prog fuel w
  by_cases hr : (probe_read_mode dev prog fuel w).1 = .ok ()
  · have he := probe_deinit_of_ok dev prog fuel w (probe_read_mode dev prog fuel w).2
      (Prod.ext hr rfl)
    rw [he]
    by_cases hi : w.probe.initted = 0
    · rw [if_neg (by simpa using hi), h1, h2, installedAt_append, h]
      simp [installStep, jmpRead]
    · rw [if_pos hi]
      simp only [h2]
      rw [installedAt_append, installedAt_append, h, if_pos hi]
      simp [installStep, jmpRead]
  · rw [probe_deinit_of_not_ok dev prog fuel w hr, h1, h2, installedAt_append, h]
    simp [installStep, jmpRead]

/-- Every run of lifecycle calls keeps the lifecycle invariant. -/
theorem runCalls_inv (dev : Pio σ) (prog : ProbeProgram) (cfg : BoardConfig) (fuel : Nat)
    (calls : List Call) (w : World σ) (h : LifecycleInv w) :
    LifecycleInv (runCalls dev prog cfg fuel calls w).2 := by
  induction calls generalizing w with
  | nil => exact h
  | cons c cs ih =>
    have hc : LifecycleInv (runCall dev prog cfg fuel c w).2 := by
      cases c with
      | init => exact probe_init_inv dev prog cfg fuel w h
      | deinit => exact probe_deinit_inv dev prog fuel w h
    simp only [runCalls, bind, Drv.bind]
    rcases hr : runCall dev prog cfg fuel c w with ⟨r, w1⟩
    rw [hr] at hc
    cases r with
    | ok a => exact ih w1 hc
    | hang => exact hc
    | undefined => exact hc

/-- C6: from power-up, after every sequence of `probe_init` / `probe_deinit` calls the
trace has the program loaded (at `probe.offset`) exactly when `probe.initted` is set.
`probe_init` on an initialised probe only enters write mode and leaves `offset` and
`initted`; on an uninitialised probe it loads the program, stores the offset and sets
`initted`.  `probe_deinit` on an uninitialised probe only jumps to read mode and leaves
`offset` and `initted`; on an initialised probe whose mode switch completes it
disables the state machine, removes the program at the stored offset and clears
`initted`. -/
theorem lifecycle_installed_iff_initted (dev : Pio σ) (prog : ProbeProgram) (cfg : BoardConfig)
    (fuel : Nat) :
    (∀ (calls : List Call) (s0 : σ) (hz : Nat) (g : Nat → PinState),
      LifecycleInv (runCalls dev prog cfg fuel calls (World.start s0 hz g)).2 ∧
      (installedAt (runCalls dev prog cfg fuel calls (World.start s0 hz g)).2.trace ≠ none ↔
        (runCalls dev prog cfg fuel calls (World.start s0 hz g)).2.probe.initted ≠ 0)) ∧
    (∀ w : World σ, w.probe.initted ≠ 0 →
      probe_init dev prog cfg fuel w = probe_write_mode dev prog fuel w ∧
      (probe_init dev prog cfg fuel w).2.probe = w.probe ∧
      (probe_init dev prog cfg fuel w).2.trace = w.trace ++ [jmpWrite dev prog w.probe.offset]) ∧
    (∀ (w : World σ) (off : Nat) (s : σ), w.probe.initted = 0 →
      dev.add_program w.sm = some (off, s) →
      (probe_init dev prog cfg fuel w).2.probe = { offset := off % UINT_MOD, initted := 1 } ∧
      (probe_init dev prog cfg fuel w).2.trace =
        w.trace ++ installEvents prog cfg w.clk_sys_hz (off % UINT_MOD) ++
          [jmpWrite dev prog (off % UINT_MOD)]) ∧
    (∀ w : World σ, w.probe.initted = 0 →
      probe_deinit dev prog fuel w = probe_read_mode dev prog fuel w ∧
      (probe_deinit dev prog fuel w).2.probe = w.probe ∧
      (probe_deinit dev prog fuel w).2.trace = w.trace ++ [jmpRead dev prog w.probe.offset]) ∧
    (∀ w : World σ, w.probe.initted ≠ 0 →
      ((probe_read_mode dev prog fuel w).1 = .ok () →
        (probe_deinit dev prog fuel w).1 = .ok () ∧
        (probe_deinit dev prog fuel w).2.probe = { offset := w.probe.offset, initted := 0 } ∧
        (probe_deinit dev prog fuel w).2.trace =
          w.trace ++ [jmpRead dev prog w.probe.offset, .sm_set_enabled false,
            .remove_program w.probe.offset]) ∧
      ((probe_read_mode dev prog fuel w).1 ≠ .ok () →
        (probe_deinit dev prog fuel w).2.probe = w.probe ∧
        (probe_deinit dev prog fuel w).2.trace =
          w.trace ++ [jmpRead dev prog w.probe.offset])) := by
  refine ⟨?_, ?_, ?_, ?_, ?_⟩
  · intro calls s0 hz g
    have h0 : LifecycleInv (World.start s0 hz g) := by
      simp [LifecycleInv, World.start, installedAt]
    have h := runCalls_inv dev prog cfg fuel calls _ h0
    refine ⟨h, ?_⟩
    unfold LifecycleInv at h
    rw [h]
    by_cases hi : (runCalls dev prog cfg fuel calls (World.start s0 hz g)).2.probe.initted = 0
    · simp [hi]
    · simp [hi]
  · intro w hi
    have he := probe_init_of_initted dev prog cfg fuel w hi
    obtain ⟨h1, h2, -⟩ := probe_write_mode_spec dev prog fuel w
    exact ⟨he, by rw [he, h1], by rw [he, h2]⟩
  · intro w off s hi ha
    rw [probe_init_of_add_some dev prog cfg fuel w off s hi ha]
    obtain ⟨h1, h2, -⟩ := probe_write_mode_spec dev prog fuel
      { probe := { offset := off % UINT_MOD, initted := 1 },
        clk_sys_hz := w.clk_sys_hz,
        gpio := w.gpio,
        sm := installedSm dev prog cfg w.clk_sys_hz (off % UINT_MOD) s,
        trace := w.trace ++ installEvents prog cfg w.clk_sys_hz (off % UINT_MOD) }
    exact ⟨h1, h2⟩
  · intro w hi
    obtain ⟨h1, h2, -⟩ := probe_read_mode_spec dev prog fuel w
    have he : probe_deinit dev prog fuel w = probe_read_mode dev prog fuel w := by
      by_cases hr : (probe_read_mode dev prog fuel w).1 = .ok ()
      · rw [probe_deinit_of_ok dev prog fuel w (probe_read_mode dev prog fuel w).2
          (eq_ok_pair _ hr), if_neg (by simpa using hi)]
        exact (eq_ok_pair _ hr).symm
      · exact probe_deinit_of_not_ok dev prog fuel w hr
    exact ⟨he, by rw [he, h1], by rw [he, h2]⟩
  · intro w hi
    obtain ⟨h1, h2, -⟩ := probe_read_mode_spec dev prog fuel w
    constructor
    · intro hr
      rw [probe_deinit_of_ok dev prog fuel w (probe_read_mode dev prog fuel w).2
        (eq_ok_pair _ hr), if_pos hi]
      simp [h2]
    · intro hr
      rw [probe_deinit_of_not_ok dev prog fuel w hr]
      exact ⟨h1, h2⟩

/-- Witness of C6: `init, init, deinit` on the stub, a second `probe_init`, a first
`probe_init`, and `probe_deinit` before and after initialisation. -/
theorem lifecycle_installed_iff_initted_witness :
    LifecycleInv (runCalls stubDev stubProgram board 2 [.init, .init, .deinit]
      (World.start stub0 125000000 (fun _ => pin0))).2 ∧
    ((probe_init stubDev stubProgram board 2 stubReady).2.probe = stubReady.probe ∧
      (probe_init stubDev stubProgram board 2 stubReady).2.trace =
        stubReady.trace ++ [jmpWrite stubDev stubProgram stubReady.probe.offset]) ∧
    ((probe_init stubDev stubProgram board 2 stubWorld).2.probe =
        { offset := 16 % UINT_MOD, initted := 1 } ∧
      (probe_init stubDev stubProgram board 2 stubWorld).2.trace =
        stubWorld.trace ++ installEvents stubProgram board stubWorld.clk_sys_hz (16 % UINT_MOD) ++
          [jmpWrite stubDev stubProgram (16 % UINT_MOD)]) ∧
    ((probe_deinit stubDev stubProgram 2 stubWorld).2.probe = stubWorld.probe ∧
      (probe_deinit stubDev stubProgram 2 stubWorld).2.trace =
        stubWorld.trace ++ [jmpRead stubDev stubProgram stubWorld.probe.offset]) ∧
    ((probe_deinit stubDev stubProgram 2 stubReady).1 = .ok () ∧
      (probe_deinit stubDev stubProgram 2 stubReady).2.probe =
        { offset := stubReady.probe.offset, initted := 0 } ∧
      (probe_deinit stubDev stubProgram 2 stubReady).2.trace =
        stubReady.trace ++ [jmpRead stubDev stubProgram stubReady.probe.offset,
          .sm_set_enabled false, .remove_program stubReady.probe.offset]) :=
  have h := lifecycle_installed_iff_initted stubDev stubProgram board 2
  ⟨(h.1 [.init, .init, .deinit] stub0 125000000 (fun _ => pin0)).1,
    (h.2.1 stubReady stubReady_initted).2,
    h.2.2.1 stubWorld 16 { stub0 with loaded := true } rfl rfl,
    (h.2.2.2.1 stubWorld rfl).2,
    (h.2.2.2.2 stubReady stubReady_initted).1 (by rw [stubIdleRead_run])⟩

/-- Counterexample to C7: on the initialised stub, right after `probe_read_mode`, the
call `probe_write_bits(8, 0xAB)` returns normally and has pushed 7 and `0xAB`. -/
theorem write_bits_in_read_mode_accepted :
    stubIdleRead.trace.getLast? = some (jmpRead stubDev stubProgram stubReady.probe.offset) ∧
    (probe_write_bits stubDev 8 0xAB stubIdleRead).1 = .ok () ∧
    (probe_write_bits stubDev 8 0xAB stubIdleRead).2.trace =
      stubIdleRead.trace ++ [.sm_put 7, .sm_put 0xAB, .sm_get 0xFF000000] := by
  decide!

/-- C7 as amended: `probe_write_bits` has no mode check.  Called in the state in which
`probe_read_mode` returned (program counter at `probe.offset + in_idle`), for
`bit_count` in [1,32], it pushes `bit_count - 1` as soon as the FIFO takes it, and
when the FIFO takes both words and delivers one it returns normally having pushed
`bit_count - 1`, then `data`, and popped one word; it never ends in an error, and it
stops only where the device blocks a push or the pop, with the accesses made so far. -/
theorem probe_write_bits_ignores_mode (dev : Pio σ) (prog : ProbeProgram) (fuel : Nat)
    (w w1 : World σ) (bit_count data : Nat)
    (hmode : probe_read_mode dev prog fuel w = (.ok (), w1))
    (hlo : 1 ≤ bit_count) (hhi : bit_count ≤ 32) :
    dev.get_pc w1.sm = u32_add w1.probe.offset prog.probe_offset_in_idle ∧
    w1.trace.getLast? = some (jmpRead dev prog w1.probe.offset) ∧
    (probe_write_bits dev bit_count data w1).1 ≠ .undefined ∧
    (∀ s1, dev.put_blocking w1.sm (bit_count - 1) = some s1 →
      ∃ evs, (probe_write_bits dev bit_count data w1).2.trace =
        w1.trace ++ .sm_put (bit_count - 1) :: evs) ∧
    (∀ s1 s2 x s3, dev.put_blocking w1.sm (bit_count - 1) = some s1 →
      dev.put_blocking s1 data = some s2 →
      dev.get_blocking s2 = some (x, s3) →
      probe_write_bits dev bit_count data w1 =
        (.ok (), { w1 with
          sm := s3,
          trace := w1.trace ++
            [.sm_put (bit_count - 1), .sm_put data, .sm_get (x % UINT_MOD)] })) ∧
    (dev.put_blocking w1.sm (bit_count - 1) = none →
      probe_write_bits dev bit_count data w1 = (.hang, w1)) ∧
    (∀ s1, dev.put_blocking w1.sm (bit_count - 1) = some s1 →
      dev.put_blocking s1 data = none →
      probe_write_bits dev bit_count data w1 =
        (.hang, { w1 with sm := s1, trace := w1.trace ++ [.sm_put (bit_count - 1)] })) ∧
    (∀ s1 s2, dev.put_blocking w1.sm (bit_count - 1) = some s1 →
      dev.put_blocking s1 data = some s2 →
      dev.get_blocking s2 = none →
      probe_write_bits dev bit_count data w1 =
        (.hang, { w1 with
          sm := s2,
          trace := w1.trace ++ [.sm_put (bit_count - 1), .sm_put data] })) := by
  have h1 : u32_sub bit_count 1 = bit_count - 1 :=
    u32_sub_of_le _ _ hlo (by unfold UINT_MOD; omega)
  obtain ⟨m1, m2, -, -, -, m6⟩ := probe_read_mode_spec dev prog fuel w
  rw [hmode] at m1 m2 m6
  simp only at m1 m2 m6
  refine ⟨by rw [m1]; exact m6 trivial, by rw [m2, m1]; simp, ?_, ?_, ?_, ?_, ?_, ?_⟩
  · simp only [probe_write_bits, bind, Drv.bind, pio_sm_put_blocking, pio_sm_get_blocking,
      pure, Drv.pure, h1]
    cases hp1 : dev.put_blocking w1.sm (bit_count - 1) with
    | none => simp
    | some s1 =>
      cases hp2 : dev.put_blocking s1 data with
      | none => simp [hp2]
      | some s2 =>
        cases hg : dev.get_blocking s2 with
        | none => simp [hp2, hg]
        | some p => simp [hp2, hg]
  · intro s1 hp1
    simp only [probe_write_bits, bind, Drv.bind, pio_sm_put_blocking, pio_sm_get_blocking,
      pure, Drv.pure, h1, hp1]
    cases hp2 : dev.put_blocking s1 data with
    | none => exact ⟨[], by simp [hp2]⟩
    | some s2 =>
      cases hg : dev.get_blocking s2 with
      | none => exact ⟨[.sm_put data], by simp [hp2, hg]⟩
      | some p => exact ⟨[.sm_put data, .sm_get (p.1 % UINT_MOD)], by simp [hp2, hg]⟩
  · intro s1 s2 x s3 hp1 hp2 hg
    simp [probe_write_bits, bind, Drv.bind, pio_sm_put_blocking, pio_sm_get_blocking,
      pure, Drv.pure, h1, hp1, hp2, hg]
  · intro hp1
    simp [probe_write_bits, bind, Drv.bind, pio_sm_put_blocking, h1, hp1]
  · intro s1 hp1 hp2
    simp [probe_write_bits, bind, Drv.bind, pio_sm_put_blocking, h1, hp1, hp2]
  · intro s1 s2 hp1 hp2 hg
    simp [probe_write_bits, bind, Drv.bind, pio_sm_put_blocking, pio_sm_get_blocking, h1, hp1,
      hp2, hg]

/-- Witness of C7 as amended: the initialised stub in read mode, eight bits of `0xAB`. -/
theorem probe_write_bits_ignores_mode_witness :
    probe_write_bits stubDev 8 0xAB stubIdleRead =
      (.ok (), { stubIdleRead with
        sm := { stubIdleRead.sm with rx := [shiftIn (List.replicate (0xAB + 1) true) 0] },
        trace := stubIdleRead.trace ++
          [.sm_put (8 - 1), .sm_put 0xAB, .sm_get (0xFF000000 % UINT_MOD)] }) :=
  (probe_write_bits_ignores_mode stubDev stubProgram 2 stubReady stubIdleRead 8 0xAB
    stubIdleRead_run (by decide) (by decide)).2.2.2.2.1
    { stubIdleRead.sm with rx := [0xFF000000] }
    { stubIdleRead.sm with rx := [0xFF000000, shiftIn (List.replicate (0xAB + 1) true) 0] }
    0xFF000000
    { stubIdleRead.sm with rx := [shiftIn (List.replicate (0xAB + 1) true) 0] }
    (by decide!) (by decide!) (by decide!)

/-- Length of what the stub shifts out. -/
theorem shiftOut_length (n osr : Nat) : (shiftOut n osr).length = n := by
  induction n generalizing osr with
  | zero => rfl
  | succ k ih => simp [shiftOut, ih]

/-- Shifting `n ≤ 32` bits of `d` out and into the input register leaves the low `n`
bits of `d` at the top of the register. -/
theorem shiftIn_shiftOut (n : Nat) :
    ∀ d isr : Nat, n ≤ 32 →
      shiftIn (shiftOut n d) isr = isr / 2 ^ n + d % 2 ^ n * 2 ^ (32 - n) := by
  induction n with
  | zero =>
    intro d isr _
    simp [shiftOut, shiftIn, Nat.mod_one]
  | succ k ih =>
    intro d isr hk
    have hk1 : k ≤ 32 := by omega
    simp only [shiftOut, shiftIn]
    rw [ih _ _ hk1]
    obtain ⟨m, hm⟩ : ∃ m, 31 = k + m := ⟨31 - k, by omega⟩
    have e1 : 32 - k = m + 1 := by omega
    have e2 : 32 - (k + 1) = m := by omega
    have e3 : (2147483648 : Nat) = 2 ^ k * 2 ^ m := by
      rw [← Nat.pow_add, ← hm]
    have hpos : 0 < 2 ^ k := Nat.two_pow_pos k
    have hA : isr / 2 ^ (k + 1) = isr / 2 / 2 ^ k := by
      rw [Nat.pow_succ, Nat.mul_comm, Nat.div_div_eq_div_mul]
    have hB : d % 2 ^ (k + 1) = d % 2 + 2 * (d / 2 % 2 ^ k) := by
      rw [Nat.pow_succ, Nat.mul_comm, Nat.mod_mul]
    have hC : (if decide (d % 2 = 1) = true then 2147483648 else 0) = 2 ^ k * (d % 2 * 2 ^ m) := by
      rcases Nat.mod_two_eq_zero_or_one d with h0 | h1
      · simp [h0]
      · simp [h1, e3]
    rw [e1, e2, hA, hB, hC, Nat.add_mul_div_left _ _ hpos]
    ring

/-- More reads of the program counter do not change a wait that completed. -/
theorem wait_pc_mono (dev : Pio σ) (idle fuel k : Nat) (w w1 : World σ)
    (h : wait_pc dev idle fuel w = (.ok (), w1)) :
    wait_pc dev idle (fuel + k) w = (.ok (), w1) := by
  induction fuel generalizing w with
  | zero => simp [wait_pc] at h
  | succ n ih =>
    rw [Nat.add_right_comm]
    by_cases hpc : dev.get_pc w.sm = u32_add w.probe.offset idle
    · simp only [wait_pc, ne_eq, hpc, not_true_eq_false, ↓reduceIte] at h ⊢
      exact h
    · simp only [wait_pc, ne_eq, hpc, not_false_eq_true, ↓reduceIte] at h ⊢
      exact ih _ h

/-- More fuel does not change a `probe_write_mode` that returned. -/
theorem probe_write_mode_mono (dev : Pio σ) (prog : ProbeProgram) (fuel k : Nat)
    (w w1 : World σ) (h : probe_write_mode dev prog fuel w = (.ok (), w1)) :
    probe_write_mode dev prog (fuel + k) w = (.ok (), w1) := by
  rw [probe_write_mode_eq] at h ⊢
  exact wait_pc_mono dev _ fuel k _ w1 h

/-- More fuel does not change a `probe_read_mode` that returned. -/
theorem probe_read_mode_mono (dev : Pio σ) (prog : ProbeProgram) (fuel k : Nat)
    (w w1 : World σ) (h : probe_read_mode dev prog fuel w = (.ok (), w1)) :
    probe_read_mode dev prog (fuel + k) w = (.ok (), w1) := by
  rw [probe_read_mode_eq] at h ⊢
  exact wait_pc_mono dev _ fuel k _ w1 h

/-- More fuel does not change a `probe_init` that returned. -/
theorem probe_init_mono (dev : Pio σ) (prog : ProbeProgram) (cfg : BoardConfig) (fuel k : Nat)
    (w w1 : World σ) (h : probe_init dev prog cfg fuel w = (.ok (), w1)) :
    probe_init dev prog cfg (fuel + k) w = (.ok (), w1) := by
  by_cases hi : w.probe.initted = 0
  · cases ha : dev.add_program w.sm with
    | none =>
      rw [probe_init_of_add_none dev prog cfg fuel w hi ha] at h
      simp at h
    | some p =>
      rw [probe_init_of_add_some dev prog cfg fuel w p.1 p.2 hi ha] at h
      rw [probe_init_of_add_some dev prog cfg (fuel + k) w p.1 p.2 hi ha]
      exact probe_write_mode_mono dev prog fuel k _ w1 h
  · rw [probe_init_of_initted dev prog cfg fuel w hi] at h
    rw [probe_init_of_initted dev prog cfg (fuel + k) w hi]
    exact probe_write_mode_mono dev prog fuel k _ w1 h

/-- The initialised stub idles in write mode with empty FIFOs and an empty line. -/
theorem stubReady_sm : stubReady.sm = stubIdle 17 [] ∧ stubReady.probe.offset = 16 := by
  decide!

/-- The stub idle in write mode takes a write of `bit_count` bits: the bits go onto the
line and the completion word is popped. -/
theorem stub_write_bits (w : World Stub) (line : List Bool) (bit_count data : Nat)
    (hsm : w.sm = stubIdle 17 line) (hlo : 1 ≤ bit_count) (hhi : bit_count ≤ 32) :
    probe_write_bits stubDev bit_count data w =
      (.ok (), { w with
        sm := stubIdle 17 (line ++ shiftOut bit_count data),
        trace := w.trace ++ [.sm_put (bit_count - 1), .sm_put data, .sm_get 0] }) := by
  have h1 : u32_sub bit_count 1 = bit_count - 1 :=
    u32_sub_of_le _ _ hlo (by unfold UINT_MOD; omega)
  have h2 : bit_count - 1 + 1 = bit_count := by omega
  simp [probe_write_bits, bind, Drv.bind, pio_sm_put_blocking, pio_sm_get_blocking, pure,
    Drv.pure, h1, h2, hsm, stubDev, stubIdle, Stub.run, stubLoadOffset, UINT_MOD]

/-- The stub idle in write mode follows `probe_read_mode` within two reads of the
program counter. -/
theorem stub_read_mode (w : World Stub) (line : List Bool) (k : Nat)
    (hsm : w.sm = stubIdle 17 line) (hoff : w.probe.offset = 16) :
    probe_read_mode stubDev stubProgram (2 + k) w =
      (.ok (), { w with
        sm := stubIdle 26 line,
        trace := w.trace ++ [jmpRead stubDev stubProgram 16] }) := by
  have h2 : 2 + k = k + 1 + 1 := by omega
  rw [probe_read_mode_eq, h2]
  simp [wait_pc, hsm, hoff, stubDev, stubIdle, stubProgram, Stub.tick, stubLoadOffset, u32_add,
    UINT_MOD, jmpRead]

/-- The stub idle in read mode with `bit_count` written bits on the line returns the
low `bit_count` bits of the written word. -/
theorem stub_read_bits (w : World Stub) (bit_count data : Nat)
    (hsm : w.sm = stubIdle 26 (shiftOut bit_count data)) (hlo : 1 ≤ bit_count)
    (hhi : bit_count ≤ 32) :
    (probe_read_bits stubDev bit_count w).1 = .ok (data % 2 ^ bit_count) := by
  have h1 : u32_sub bit_count 1 = bit_count - 1 :=
    u32_sub_of_le _ _ hlo (by unfold UINT_MOD; omega)
  have h2 : bit_count - 1 + 1 = bit_count := by omega
  have h3 : u32_sub 32 bit_count = 32 - bit_count :=
    u32_sub_of_le _ _ hhi (by unfold UINT_MOD; omega)
  have htake : (shiftOut bit_count data ++ List.replicate bit_count true).take bit_count
      = shiftOut bit_count data := by
    rw [List.take_append_of_le_length (by rw [shiftOut_length])]
    exact List.take_of_length_le (by rw [shiftOut_length])
  have hin := shiftIn_shiftOut bit_count data 0 hhi
  rw [Nat.zero_div, Nat.zero_add] at hin
  have hpow : 2 ^ bit_count * 2 ^ (32 - bit_count) = UINT_MOD := by
    rw [← Nat.pow_add, Nat.add_sub_cancel' hhi]
    rfl
  have hlt : data % 2 ^ bit_count * 2 ^ (32 - bit_count) < UINT_MOD := by
    rw [← hpow]
    exact Nat.mul_lt_mul_of_pos_right (Nat.mod_lt _ (Nat.two_pow_pos _)) (Nat.two_pow_pos _)
  have hmod : data % 2 ^ bit_count * 2 ^ (32 - bit_count) % UINT_MOD
      = data % 2 ^ bit_count * 2 ^ (32 - bit_count) := Nat.mod_eq_of_lt hlt
  by_cases h32 : bit_count < 32
  · have h4 : 32 - bit_count < 32 := by omega
    simp [probe_read_bits, bind, Drv.bind, pio_sm_put_blocking, pio_sm_get_blocking, pure,
      Drv.pure, h1, h2, h3, hsm, stubDev, stubIdle, Stub.run, stubLoadOffset, htake, hin, hmod,
      h32, liftRes, u32_shr, h4, Nat.shiftRight_eq_div_pow]
  · have hb : 32 - bit_count = 0 := by omega
    rw [hb, Nat.pow_zero, Nat.mul_one] at hin hmod
    simp [probe_read_bits, bind, Drv.bind, pio_sm_put_blocking, pio_sm_get_blocking, pure,
      Drv.pure, h1, h2, hsm, stubDev, stubIdle, Stub.run, stubLoadOffset, htake, hin, hmod,
      h32]

/-- The round trip after initialisation, from any state in which the stub idles in
write mode with empty FIFOs and an empty line. -/
theorem stub_round_trip_from (w0 : World Stub) (k bit_count data : Nat)
    (hsm : w0.sm = stubIdle 17 []) (hoff : w0.probe.offset = 16)
    (hlo : 1 ≤ bit_count) (hhi : bit_count ≤ 32) :
    (Drv.bind (probe_write_bits stubDev bit_count data) (fun _ =>
      Drv.bind (probe_read_mode stubDev stubProgram (2 + k)) (fun _ =>
        probe_read_bits stubDev bit_count)) w0).1 = .ok (data % 2 ^ bit_count) := by
  have hwrite := stub_write_bits w0 [] bit_count data hsm hlo hhi
  rw [List.nil_append] at hwrite
  have hmode := stub_read_mode
    { w0 with
      sm := stubIdle 17 (shiftOut bit_count data),
      trace := w0.trace ++ [.sm_put (bit_count - 1), .sm_put data, .sm_get 0] }
    (shiftOut bit_count data) k rfl hoff
  have hread := stub_read_bits
    { w0 with
      sm := stubIdle 26 (shiftOut bit_count data),
      trace := w0.trace ++ [.sm_put (bit_count - 1), .sm_put data, .sm_get 0] ++
        [jmpRead stubDev stubProgram 16] }
    bit_count data rfl hlo hhi
  simp only [Drv.bind, hwrite, hmode]
  exact hread

/-- Once `probe_init` has returned, the round trip continues with the write. -/
theorem roundTrip_after_init (fuel bit_count data : Nat) (w w1 : World Stub)
    (h : probe_init stubDev stubProgram board fuel w = (.ok (), w1)) :
    roundTrip fuel bit_count data w =
      Drv.bind (probe_write_bits stubDev bit_count data) (fun _ =>
        Drv.bind (probe_read_mode stubDev stubProgram fuel) (fun _ =>
          probe_read_bits stubDev bit_count)) w1 := by
  show Drv.bind (probe_init stubDev stubProgram board fuel) _ w = _
  unfold Drv.bind
  rw [h]
  rfl

/-- C4: over the loop-back stub, for `bit_count` in [1,32] and every `data`, the
sequence `probe_init`, `probe_write_bits(bit_count, data)`, `probe_read_mode`,
`probe_read_bits(bit_count)` returns `data mod 2 ^ bit_count`, as soon as the polling
loops may read the program counter twice. -/
theorem loopback_round_trip (fuel bit_count data : Nat) (hf : 2 ≤ fuel)
    (hlo : 1 ≤ bit_count) (hhi : bit_count ≤ 32) :
    (roundTrip fuel bit_count data stubWorld).1 = .ok (data % 2 ^ bit_count) := by
  obtain ⟨k, rfl⟩ : ∃ k, fuel = 2 + k := ⟨fuel - 2, by omega⟩
  have hinit := probe_init_mono stubDev stubProgram board 2 k stubWorld stubReady stubReady_run
  have h := stub_round_trip_from stubReady k bit_count data stubReady_sm.1 stubReady_sm.2
    hlo hhi
  rw [roundTrip_after_init (2 + k) bit_count data stubWorld stubReady hinit]
  exact h

/-- Witness of C4: `init`, `write_bits(8, 0xAB)`, `enter_read_mode`, `read_bits(8)` on
the stub returns `0xAB`. -/
theorem loopback_round_trip_witness : (roundTrip 2 8 0xAB stubWorld).1 = .ok 0xAB :=
  loopback_round_trip 2 8 0xAB (by decide) (by decide) (by decide)

end proofs

end Picoprobe
